import Mathlib

/-!
Shallow embedding of the Quay pull-statistics background worker
(`workers/pullstatssyncworker.py` as given in the design document):
the `PullStatsSyncWorker` aggregation pass over pull-log events, the
`TagPullStatistics` / `ManifestPullStatistics` / `PullStatisticsProcessingState`
tables, and the database fallback read path
(`_get_pull_logs_from_database`).

Modelling conventions:
- timestamps are `Nat` (the code only compares and maxes datetimes);
- a log record is the dictionary shape produced by both read paths
  (`\x7b'id', 'datetime', 'repository_id', 'kind', 'metadata'\x7d`, with the
  metadata keys `'tag'` and `'manifest_digest'` flattened in);
- Python truthiness of `metadata.get(...)` strings is `truthy` below
  (absent key, `None`, or the empty string are all falsy);
- the three tables are total functions from their natural key to an
  optional row, so `get_or_create` / `update ... where` become pointwise
  function override;
- per-batch `db_transaction()` atomicity and write failure are modelled
  in `process_pull_logs_with_failure`: the failing transaction's writes
  roll back and the raised error skips the checkpoint update.
-/

/-- Python truthiness of an optional string value obtained from
`metadata.get(...)`: `None` (absent) and the empty string are falsy. -/
def truthy : Option String → Bool
  | none => false
  | some s => !s.isEmpty

/-- One row of the `TagPullStatistics` table (fields the worker writes). -/
structure TagPullStatistics where
  tag_pull_count : Nat
  last_tag_pull_date : Nat
  current_manifest_digest : String
  updated : Nat
deriving DecidableEq

/-- One row of the `ManifestPullStatistics` table (fields the worker writes). -/
structure ManifestPullStatistics where
  total_pull_count : Nat
  last_pull_date : Nat
  last_tag_pulled : Option String
  updated : Nat
deriving DecidableEq

/-- The single `PullStatisticsProcessingState` row for `WORKER_ID`. -/
structure ProcessingState where
  last_processed_datetime : Nat
  last_processed_log_id : Option Nat
  logs_processed_count : Nat
deriving DecidableEq

/-- A pull-log event record, as produced by both read paths: a dictionary
with keys `id`, `datetime`, `repository_id` and the metadata entries
`tag` and `manifest_digest` (each possibly absent). -/
structure LogRecord where
  id : Option Nat
  datetime : Nat
  repository_id : Option Nat
  tag : Option String
  manifest_digest : Option String
deriving DecidableEq

/-- The two statistics tables, keyed by their unique natural keys:
`TagPullStatistics` by (repository, tag_name) and `ManifestPullStatistics`
by (repository, manifest_digest). -/
structure Stats where
  tagStats : Nat → String → Option TagPullStatistics
  manifestStats : Nat → String → Option ManifestPullStatistics

/-- Stats tables with no rows. -/
def emptyStats : Stats where
  tagStats := fun _ _ => none
  manifestStats := fun _ _ => none

/-- The external Tag/Manifest resolver consulted by
`_get_manifest_digest_for_tag`: repository id and tag name to the digest of
the currently active binding, `none` when the tag has no active binding. -/
def Resolver : Type := Nat → String → Option String

/-- A resolver that finds no active binding for any tag. -/
def resolverNone : Resolver := fun _ _ => none

/-- `_update_manifest_pull_stats`: get_or_create on
(repository, manifest_digest); on create the row starts at count 1 with
`last_tag_pulled` the via-tag; on update the count always increments and
`updated` is set, while `last_pull_date` (and, for a truthy via-tag,
`last_tag_pulled`) change only when the event is strictly newer than the
stored `last_pull_date`. -/
def update_manifest_pull_stats (repo : Nat) (digest : String) (pull_datetime : Nat)
    (via_tag : Option String) (tbl : Nat → String → Option ManifestPullStatistics) :
    Nat → String → Option ManifestPullStatistics :=
  match tbl repo digest with
  | none =>
    fun r d =>
      if r = repo ∧ d = digest then
        some { total_pull_count := 1, last_pull_date := pull_datetime,
               last_tag_pulled := via_tag, updated := pull_datetime }
      else tbl r d
  | some row =>
    let row2 : ManifestPullStatistics :=
      if row.last_pull_date < pull_datetime then
        { total_pull_count := row.total_pull_count + 1,
          last_pull_date := pull_datetime,
          last_tag_pulled := if truthy via_tag then via_tag else row.last_tag_pulled,
          updated := pull_datetime }
      else
        { row with total_pull_count := row.total_pull_count + 1, updated := pull_datetime }
    fun r d => if r = repo ∧ d = digest then some row2 else tbl r d

/-- `_update_tag_pull_stats`: resolve the digest (event metadata first, else
the active-binding lookup); on an unresolvable digest the function returns
with only a warning logged, touching neither table. Otherwise it
get_or_creates the (repository, tag_name) row — on update the count
increments and `last_tag_pull_date`, `current_manifest_digest`, `updated`
are all set unconditionally to the event's values — and then performs the
manifest-side update with the tag as via-tag. -/
def update_tag_pull_stats (resolver : Resolver) (repo : Nat) (tag_name : String)
    (pull_datetime : Nat) (manifest_digest : Option String) (stats : Stats) : Stats :=
  match (if truthy manifest_digest then manifest_digest else resolver repo tag_name) with
  | none => stats
  | some digest =>
    if digest.isEmpty then stats
    else
      let tagRow : TagPullStatistics :=
        match stats.tagStats repo tag_name with
        | none =>
          { tag_pull_count := 1, last_tag_pull_date := pull_datetime,
            current_manifest_digest := digest, updated := pull_datetime }
        | some row =>
          { tag_pull_count := row.tag_pull_count + 1, last_tag_pull_date := pull_datetime,
            current_manifest_digest := digest, updated := pull_datetime }
      { tagStats := fun r n =>
          if r = repo ∧ n = tag_name then some tagRow else stats.tagStats r n,
        manifestStats :=
          update_manifest_pull_stats repo digest pull_datetime (some tag_name)
            stats.manifestStats }

/-- `_process_single_log`: skip events without a truthy repository id;
classify by the `tag` metadata key (tag-pull) else the `manifest_digest`
key (digest-pull) else skip. -/
def process_single_log (resolver : Resolver) (log : LogRecord) (stats : Stats) : Stats :=
  match log.repository_id with
  | none => stats
  | some repo =>
    if repo = 0 then stats
    else if truthy log.tag then
      update_tag_pull_stats resolver repo (log.tag.getD "") log.datetime
        log.manifest_digest stats
    else if truthy log.manifest_digest then
      { stats with
        manifestStats :=
          update_manifest_pull_stats repo (log.manifest_digest.getD "") log.datetime
            none stats.manifestStats }
    else stats

/-- `_process_log_batch`: one `db_transaction()` applying the batch's
events in order. -/
def process_log_batch (resolver : Resolver) (batch : List LogRecord) (stats : Stats) : Stats :=
  batch.foldl (fun s log => process_single_log resolver log s) stats

/-- Python `hasattr(log_entry, 'id')` in the `_process_pull_logs` loop:
both read paths yield plain dictionaries, and a dictionary entry is not an
object attribute, so this is `false` for every record — even one carrying
an `'id'` entry. -/
def hasattr_id (_ : LogRecord) : Bool := false

/-- `_update_processing_state`: write the new watermark and ordinal and add
the pass's processed count to the cumulative counter. -/
def update_processing_state (state : ProcessingState) (latest_datetime : Nat)
    (latest_log_id : Option Nat) (processed_count : Nat) : ProcessingState where
  last_processed_datetime := latest_datetime
  last_processed_log_id := latest_log_id
  logs_processed_count := state.logs_processed_count + processed_count

/-- The batching loop of `_process_pull_logs`: append each event to the
current batch, flush (one `_process_log_batch` transaction) whenever the
batch reaches `BATCH_SIZE`, and flush the non-empty remainder at the end. -/
def batch_loop (resolver : Resolver) (batchSize : Nat) :
    List LogRecord → List LogRecord → Stats → Stats
  | [], batch, stats =>
    if batch.isEmpty then stats else process_log_batch resolver batch stats
  | log :: rest, batch, stats =>
    let batch2 := batch ++ [log]
    if batchSize ≤ batch2.length then
      batch_loop resolver batchSize rest [] (process_log_batch resolver batch2 stats)
    else
      batch_loop resolver batchSize rest batch2 stats

/-- `_process_pull_logs`, given the events read for the window: return
immediately on an empty read (no checkpoint write at all); otherwise apply
all batches and then update the processing state with the loop's
`latest_datetime` (running max from the old watermark), `latest_log_id`
(updated only under `hasattr_id`) and the processed count. -/
def process_pull_logs (resolver : Resolver) (batchSize : Nat) (state : ProcessingState)
    (pull_logs : List LogRecord) (stats : Stats) : ProcessingState × Stats :=
  if pull_logs.isEmpty then (state, stats)
  else
    let stats2 := batch_loop resolver batchSize pull_logs [] stats
    let latest_datetime :=
      pull_logs.foldl (fun acc log => max acc log.datetime) state.last_processed_datetime
    let latest_log_id :=
      pull_logs.foldl
        (fun acc log =>
          if hasattr_id log then some (max (acc.getD 0) (log.id.getD 0)) else acc)
        state.last_processed_log_id
    (update_processing_state state latest_datetime latest_log_id pull_logs.length, stats2)

/-- `_get_pull_logs_from_database` (the fallback read path): the events of
the store whose datetime lies in the closed window
`start_datetime ≤ datetime ≤ end_datetime` (both bounds inclusive in the
query), in store order (the query orders by datetime), limited to
`BATCH_SIZE * 10` records. -/
def get_pull_logs_from_database (allLogs : List LogRecord)
    (start_datetime end_datetime batchSize : Nat) : List LogRecord :=
  (allLogs.filter
    (fun log => start_datetime ≤ log.datetime && log.datetime ≤ end_datetime)).take
    (batchSize * 10)

/-- One full aggregation pass reading through the database fallback path:
window from the stored watermark to now, then `_process_pull_logs`. -/
def run_pass (resolver : Resolver) (batchSize : Nat) (allLogs : List LogRecord)
    (now : Nat) (state : ProcessingState) (stats : Stats) : ProcessingState × Stats :=
  process_pull_logs resolver batchSize state
    (get_pull_logs_from_database allLogs state.last_processed_datetime now batchSize) stats

/-- Outcome of one scheduled `_sync_pull_stats` cycle. -/
inductive SyncOutcome where
  | completed
  | lockHeld
deriving DecidableEq

/-- `_sync_pull_stats`: acquire the non-blocking global run lock; when it
is already held, `LockNotAcquiredException` is caught, logged at debug
severity, and the cycle returns having touched nothing. -/
def sync_pull_stats (lockAcquired : Bool) (resolver : Resolver) (batchSize : Nat)
    (allLogs : List LogRecord) (now : Nat) (state : ProcessingState) (stats : Stats) :
    (ProcessingState × Stats) × SyncOutcome :=
  if lockAcquired then
    (run_pass resolver batchSize allLogs now state stats, SyncOutcome.completed)
  else
    ((state, stats), SyncOutcome.lockHeld)

/-- Result of a pass in the write-failure model. -/
structure PassResult where
  state : ProcessingState
  stats : Stats
  aborted : Bool

/-- The batching loop under a transaction-commit failure: `failAt` is the
index of the first batch whose `db_transaction()` commit fails. That
transaction's writes are rolled back atomically and the raised error
propagates out of the loop (second component `true`); indices past the
last batch model a fully successful pass. The running batch index is `k`. -/
def batch_loop_fail (resolver : Resolver) (batchSize failAt : Nat) :
    List LogRecord → List LogRecord → Nat → Stats → Stats × Bool
  | [], batch, k, stats =>
    if batch.isEmpty then (stats, false)
    else if k = failAt then (stats, true)
    else (process_log_batch resolver batch stats, false)
  | log :: rest, batch, k, stats =>
    let batch2 := batch ++ [log]
    if batchSize ≤ batch2.length then
      if k = failAt then (stats, true)
      else
        batch_loop_fail resolver batchSize failAt rest [] (k + 1)
          (process_log_batch resolver batch2 stats)
    else
      batch_loop_fail resolver batchSize failAt rest batch2 k stats

/-- `_process_pull_logs` under the write-failure model: a propagating batch
write failure (caught only by `_sync_pull_stats`) skips
`_update_processing_state`, so the checkpoint row is left untouched. -/
def process_pull_logs_with_failure (resolver : Resolver) (batchSize failAt : Nat)
    (state : ProcessingState) (pull_logs : List LogRecord) (stats : Stats) : PassResult :=
  if pull_logs.isEmpty then ⟨state, stats, false⟩
  else
    match batch_loop_fail resolver batchSize failAt pull_logs [] 0 stats with
    | (stats2, true) => ⟨state, stats2, true⟩
    | (stats2, false) =>
      let latest_datetime :=
        pull_logs.foldl (fun acc log => max acc log.datetime) state.last_processed_datetime
      let latest_log_id :=
        pull_logs.foldl
          (fun acc log =>
            if hasattr_id log then some (max (acc.getD 0) (log.id.getD 0)) else acc)
          state.last_processed_log_id
      ⟨update_processing_state state latest_datetime latest_log_id pull_logs.length,
       stats2, false⟩

/-- The pull count stored for (repository, tag name), zero when no row exists. -/
def tagPullCount (stats : Stats) (repo : Nat) (tag_name : String) : Nat :=
  match stats.tagStats repo tag_name with
  | none => 0
  | some row => row.tag_pull_count

/-- The total pull count stored for (repository, manifest digest), zero when
no row exists. -/
def manifestCount (stats : Stats) (repo : Nat) (digest : String) : Nat :=
  match stats.manifestStats repo digest with
  | none => 0
  | some row => row.total_pull_count

/-- A tag-pull event on (repository `repo`, tag `t`) that carries a resolved
digest in its metadata, with a truthy repository id: such an event reaches
the tag-side upsert without consulting the resolver. -/
def isCountedTagPull (repo : Nat) (t : String) (log : LogRecord) : Bool :=
  log.repository_id == some repo && !(repo == 0) && log.tag == some t &&
    !t.isEmpty && truthy log.manifest_digest

/-- Unfolding lemma: a batch is processed by folding the single-event step. -/
theorem process_log_batch_cons (resolver : Resolver) (log : LogRecord)
    (batch : List LogRecord) (stats : Stats) :
    process_log_batch resolver (log :: batch) stats =
      process_log_batch resolver batch (process_single_log resolver log stats) := rfl

/-- Appending batches composes their processing. -/
theorem process_log_batch_append (resolver : Resolver) (b1 b2 : List LogRecord)
    (stats : Stats) :
    process_log_batch resolver (b1 ++ b2) stats =
      process_log_batch resolver b2 (process_log_batch resolver b1 stats) := by
  simp [process_log_batch, List.foldl_append]

/-- The batching loop computes the same statistics as processing the
pending batch followed by the remaining events in one sweep. -/
theorem batch_loop_eq (resolver : Resolver) (batchSize : Nat) :
    ∀ (rest batch : List LogRecord) (stats : Stats),
    batch_loop resolver batchSize rest batch stats =
      process_log_batch resolver (batch ++ rest) stats := by
  intro rest
  induction rest with
  | nil =>
    intro batch stats
    by_cases h : batch.isEmpty
    · simp [batch_loop, h, List.isEmpty_iff.mp h, process_log_batch]
    · simp [batch_loop, h]
  | cons log rest ih =>
    intro batch stats
    by_cases h : batchSize ≤ (batch ++ [log]).length
    · simp only [batch_loop, h, if_true]
      rw [ih]
      rw [← process_log_batch_append]
      simp
    · simp only [batch_loop, h, if_false]
      rw [ih]
      simp

/-- The ordinal fold of the processing loop never changes its accumulator,
because `hasattr_id` is false on every dictionary record. -/
theorem foldl_log_id_eq (logs : List LogRecord) (init : Option Nat) :
    logs.foldl
      (fun acc log =>
        if hasattr_id log then some (max (acc.getD 0) (log.id.getD 0)) else acc)
      init = init := by
  induction logs with
  | nil => rfl
  | cons log rest ih =>
    simp only [List.foldl_cons, hasattr_id, Bool.false_eq_true, if_false]
    exact ih

/-- The watermark fold only grows: the old watermark bounds the new one. -/
theorem le_foldl_max_datetime (logs : List LogRecord) :
    ∀ start : Nat, start ≤ logs.foldl (fun acc log => max acc log.datetime) start := by
  induction logs with
  | nil => intro start; exact Nat.le_refl start
  | cons log rest ih =>
    intro start
    exact Nat.le_trans (Nat.le_max_left start log.datetime) (ih (max start log.datetime))

/-- A tag-pull event that reaches the tag-side upsert produces the row with
an incremented count and the event's own timestamp written unconditionally
as last-pull date (the digest stored is the one the event resolved to). -/
theorem process_single_log_counted_tag (resolver : Resolver) (repo : Nat) (t : String)
    (log : LogRecord) (stats : Stats) (h : isCountedTagPull repo t log = true) :
    ∃ dg : String, (process_single_log resolver log stats).tagStats repo t =
      some ⟨tagPullCount stats repo t + 1, log.datetime, dg, log.datetime⟩ := by
  simp only [isCountedTagPull, Bool.and_eq_true, beq_iff_eq, Bool.not_eq_true',
    beq_eq_false_iff_ne, ne_eq] at h
  obtain ⟨⟨⟨⟨hrepo, hrepo0⟩, htag⟩, htne⟩, hdig⟩ := h
  obtain ⟨dg, hdg⟩ : ∃ dg, log.manifest_digest = some dg := by
    cases hmd : log.manifest_digest with
    | none => rw [hmd] at hdig; simp [truthy] at hdig
    | some dg => exact ⟨dg, rfl⟩
  have hdgne : dg.isEmpty = false := by
    rw [hdg] at hdig; simpa [truthy] using hdig
  refine ⟨dg, ?_⟩
  simp only [process_single_log, hrepo]
  rw [if_neg hrepo0]
  simp only [htag, truthy, htne, Bool.not_false, if_true, Option.getD_some]
  simp only [update_tag_pull_stats, hdg, truthy, hdgne, Bool.not_false, if_true]
  cases hrow : stats.tagStats repo t <;> simp [tagPullCount, hrow]

/-- Over a batch of counted tag-pulls on one (repository, tag) key, the
stored pull count grows by exactly the number of events. -/
theorem tagPullCount_batch (resolver : Resolver) (repo : Nat) (t : String)
    (es : List LogRecord) :
    ∀ stats : Stats, (∀ e ∈ es, isCountedTagPull repo t e = true) →
      tagPullCount (process_log_batch resolver es stats) repo t =
        tagPullCount stats repo t + es.length := by
  induction es with
  | nil => intro stats _; rfl
  | cons e rest ih =>
    intro stats hall
    have he : isCountedTagPull repo t e = true := hall e (List.mem_cons_self e rest)
    have hrest : ∀ x ∈ rest, isCountedTagPull repo t x = true := fun x hx =>
      hall x (List.mem_cons_of_mem e hx)
    rw [process_log_batch_cons, ih (process_single_log resolver e stats) hrest]
    obtain ⟨dg, hdg⟩ := process_single_log_counted_tag resolver repo t e stats he
    simp only [tagPullCount, hdg, List.length_cons]
    omega

/-- Claim C1, as stated, fails: two tag-pull events on (repository 1, tag
"t") delivered out of timestamp order (timestamps 5 then 3) end with
pull count 2 but last-pull timestamp 3, the most recently processed
event's timestamp, not the maximum 5. -/
theorem C1_counterexample :
    (process_log_batch resolverNone
        [⟨some 10, 5, some 1, some "t", some "d"⟩,
         ⟨some 11, 3, some 1, some "t", some "d"⟩] emptyStats).tagStats 1 "t" =
      some ⟨2, 3, "d", 3⟩ ∧ ¬((3 : Nat) = max 5 3) := by
  constructor
  · rfl
  · decide

/-- Claim C1 (amended): for a batch of N tag-pull events against one
(repository, tag) key, each reaching the tag-side upsert, the resulting
row has pull count N, and its last-pull timestamp is the timestamp of the
last event in processing order (the update writes the event timestamp
unconditionally), which equals the maximum only for deliveries that are
non-decreasing in timestamp. -/
theorem C1_amended_count_and_last_of_batch (resolver : Resolver) (repo : Nat)
    (t : String) (es : List LogRecord) (e : LogRecord) (stats : Stats)
    (hall : ∀ x ∈ es ++ [e], isCountedTagPull repo t x = true)
    (h0 : stats.tagStats repo t = none) :
    ∃ row : TagPullStatistics,
      (process_log_batch resolver (es ++ [e]) stats).tagStats repo t = some row ∧
      row.tag_pull_count = (es ++ [e]).length ∧
      row.last_tag_pull_date = e.datetime := by
  have hes : ∀ x ∈ es, isCountedTagPull repo t x = true := fun x hx =>
    hall x (by simp [hx])
  have he : isCountedTagPull repo t e = true := hall e (by simp)
  have h0c : tagPullCount stats repo t = 0 := by simp [tagPullCount, h0]
  have hcount := tagPullCount_batch resolver repo t es stats hes
  obtain ⟨dg, hdg⟩ :=
    process_single_log_counted_tag resolver repo t e
      (process_log_batch resolver es stats) he
  refine ⟨⟨tagPullCount (process_log_batch resolver es stats) repo t + 1,
    e.datetime, dg, e.datetime⟩, ?_, ?_, rfl⟩
  · rw [process_log_batch_append]
    exact hdg
  · simp [hcount, h0c]

/-- Concrete instance of the amended claim C1: two in-order tag-pulls give
count 2 and last-pull timestamp 5, the last (and maximal) timestamp. -/
theorem C1_amended_witness :
    ∃ row : TagPullStatistics,
      (process_log_batch resolverNone
          ([⟨some 1, 3, some 1, some "t", some "d"⟩] ++
            [⟨some 2, 5, some 1, some "t", some "d"⟩]) emptyStats).tagStats 1 "t" =
        some row ∧
      row.tag_pull_count =
        (([⟨some 1, 3, some 1, some "t", some "d"⟩] ++
          [⟨some 2, 5, some 1, some "t", some "d"⟩]) : List LogRecord).length ∧
      row.last_tag_pull_date =
        (⟨some 2, 5, some 1, some "t", some "d"⟩ : LogRecord).datetime :=
  C1_amended_count_and_last_of_batch resolverNone 1 "t" _ _ emptyStats
    (by decide) rfl

/-- Claim C2, as stated, fails: a tag-pull of tag "t" in repository 1 with
no resolved digest and no active binding leaves the statistics entirely
unchanged — in particular no TagStat row is created for the tag, so the
event is not counted on the tag side. -/
theorem C2_counterexample :
    process_single_log resolverNone ⟨none, 7, some 1, some "t", none⟩ emptyStats =
      emptyStats ∧
    (process_single_log resolverNone ⟨none, 7, some 1, some "t", none⟩
        emptyStats).tagStats 1 "t" = none :=
  ⟨rfl, rfl⟩

/-- Claim C2 (amended): a tag-pull event carrying no truthy resolved digest
whose tag has no truthy active binding in the resolver is skipped entirely
— neither the TagStat row nor any ManifestStat row is touched; the
occurrence is only logged (a warning), never treated as a fatal error. -/
theorem C2_amended_unresolved_skips_event (resolver : Resolver) (log : LogRecord)
    (stats : Stats) (repo : Nat) (t : String)
    (hrepo : log.repository_id = some repo)
    (htag : log.tag = some t)
    (hnodig : truthy log.manifest_digest = false)
    (hnores : truthy (resolver repo t) = false) :
    process_single_log resolver log stats = stats := by
  simp only [process_single_log, hrepo]
  by_cases h0 : repo = 0
  · simp [h0]
  · rw [if_neg h0]
    by_cases htt : truthy log.tag = true
    · rw [if_pos htt]
      simp only [htag, Option.getD_some]
      simp only [update_tag_pull_stats, hnodig, Bool.false_eq_true, if_false]
      cases hres : resolver repo t with
      | none => rfl
      | some s =>
        rw [hres] at hnores
        have hse : s.isEmpty = true := by
          simpa [truthy] using hnores
        simp [hse]
    · rw [if_neg htt, if_neg (by simp [hnodig])]

/-- Concrete instance of the amended claim C2: the unresolved tag-pull of
"t" in repository 1 is a complete no-op on the statistics tables. -/
theorem C2_amended_witness :
    process_single_log resolverNone ⟨none, 9, some 3, some "v", none⟩ emptyStats =
      emptyStats :=
  C2_amended_unresolved_skips_event resolverNone _ emptyStats 3 "v" rfl rfl rfl rfl

/-- Claim C7: with the run lock already held, the scheduled cycle exits in
the LockHeld outcome with the statistics tables and the checkpoint exactly
as they were. -/
theorem C7_lock_held_is_noop (resolver : Resolver) (batchSize : Nat)
    (allLogs : List LogRecord) (now : Nat) (state : ProcessingState) (stats : Stats) :
    sync_pull_stats false resolver batchSize allLogs now state stats =
      ((state, stats), SyncOutcome.lockHeld) := rfl

/-- Claim C9: a pass whose window read returns zero events returns before
any write, leaving the checkpoint row (watermark included) and the
statistics untouched. -/
theorem C9_empty_read_leaves_checkpoint (resolver : Resolver) (batchSize : Nat)
    (state : ProcessingState) (stats : Stats) :
    process_pull_logs resolver batchSize state [] stats = (state, stats) := rfl

/-- Claim C10: no pass ever advances the checkpoint's last-processed event
ordinal: the loop guards the ordinal update with a `hasattr` test that is
false for the dictionary records both read paths produce, so the stored
value survives unchanged. -/
theorem C10_ordinal_never_advances (resolver : Resolver) (batchSize : Nat)
    (state : ProcessingState) (logs : List LogRecord) (stats : Stats) :
    (process_pull_logs resolver batchSize state logs stats).1.last_processed_log_id =
      state.last_processed_log_id := by
  unfold process_pull_logs
  cases h : logs.isEmpty
  · simp [h, update_processing_state, foldl_log_id_eq]
  · simp [h]

/-- Frame lemma: the manifest-side upsert writes only the targeted
repository's row. -/
theorem update_manifest_frame (repo : Nat) (digest : String) (pull_datetime : Nat)
    (via_tag : Option String) (tbl : Nat → String → Option ManifestPullStatistics)
    (r : Nat) (d : String) (h : ¬r = repo) :
    update_manifest_pull_stats repo digest pull_datetime via_tag tbl r d = tbl r d := by
  unfold update_manifest_pull_stats
  cases h2 : tbl repo digest <;> simp [h]

/-- Claim C8: processing any event of repository r1 leaves every
ManifestStat row of a different repository r2 unchanged, even for the
byte-identical digest value — the rows are independent, keyed by
(repository, digest). -/
theorem C8_manifest_rows_independent (resolver : Resolver) (log : LogRecord)
    (stats : Stats) (r1 r2 : Nat) (d : String)
    (hrepo : log.repository_id = some r1) (hne : ¬r2 = r1) :
    (process_single_log resolver log stats).manifestStats r2 d =
      stats.manifestStats r2 d := by
  simp only [process_single_log, hrepo]
  by_cases h0 : r1 = 0
  · simp [h0]
  · rw [if_neg h0]
    by_cases htag : truthy log.tag = true
    · rw [if_pos htag]
      unfold update_tag_pull_stats
      cases hmd : (if truthy log.manifest_digest then log.manifest_digest
          else resolver r1 (log.tag.getD "")) with
      | none => rfl
      | some dg =>
        by_cases hemp : dg.isEmpty
        · simp [hemp]
        · simp only [hemp, Bool.false_eq_true, if_false]
          exact update_manifest_frame r1 dg log.datetime (some (log.tag.getD ""))
            stats.manifestStats r2 d hne
    · rw [if_neg htag]
      by_cases hdig : truthy log.manifest_digest = true
      · rw [if_pos hdig]
        exact update_manifest_frame r1 (log.manifest_digest.getD "") log.datetime
          none stats.manifestStats r2 d hne
      · rw [if_neg hdig]

/-- A statistics state with one existing ManifestStat row, at
(repository 2, digest "d"). -/
def statsWithRow2 : Stats where
  tagStats := fun _ _ => none
  manifestStats := fun r d =>
    if r = 2 ∧ d = "d" then some ⟨7, 9, some "v", 9⟩ else none

/-- Concrete instance of claim C8: a digest-pull of "d" in repository 1
leaves repository 2's row for the same digest value untouched. -/
theorem C8_witness :
    (process_single_log resolverNone ⟨some 1, 4, some 1, none, some "d"⟩
        statsWithRow2).manifestStats 2 "d" = statsWithRow2.manifestStats 2 "d" :=
  C8_manifest_rows_independent resolverNone _ statsWithRow2 1 2 "d" rfl (by decide)

/-- Claim C6, as stated, fails: after a tag-pull via tag "a" at time 5, a
second tag-pull via tag "b" at time 3 (out of order, not newer than the
stored last-pull date) increments the manifest count to 2 but leaves
last_tag_pulled at "a" — it is not set to the triggering tag name "b". -/
theorem C6_counterexample :
    (process_log_batch resolverNone
        [⟨some 1, 5, some 1, some "a", some "d"⟩,
         ⟨some 2, 3, some 1, some "b", some "d"⟩] emptyStats).manifestStats 1 "d" =
      some ⟨2, 5, some "a", 3⟩ ∧ (some "a" : Option String) ≠ some "b" := by
  constructor
  · rfl
  · decide

/-- Claim C6 (amended): on an existing (repository, digest) row, the
manifest-side update increments the total pull count by exactly 1,
identically for a tag-pull and a digest-pull; a digest-pull never changes
`last_tag_pulled`, and a tag-pull sets it to the triggering tag name only
when the event timestamp is strictly newer than the stored last-pull date
(otherwise it too is left unchanged). -/
theorem C6_amended_manifest_update (tbl : Nat → String → Option ManifestPullStatistics)
    (repo : Nat) (d : String) (t : Nat) (tag : String) (row : ManifestPullStatistics)
    (hrow : tbl repo d = some row) (htag : tag.isEmpty = false) :
    ∃ rowT rowD : ManifestPullStatistics,
      update_manifest_pull_stats repo d t (some tag) tbl repo d = some rowT ∧
      update_manifest_pull_stats repo d t none tbl repo d = some rowD ∧
      rowT.total_pull_count = row.total_pull_count + 1 ∧
      rowD.total_pull_count = row.total_pull_count + 1 ∧
      rowD.last_tag_pulled = row.last_tag_pulled ∧
      rowT.last_tag_pulled =
        (if row.last_pull_date < t then some tag else row.last_tag_pulled) := by
  by_cases hlt : row.last_pull_date < t
  · refine ⟨⟨row.total_pull_count + 1, t, some tag, t⟩,
      ⟨row.total_pull_count + 1, t, row.last_tag_pulled, t⟩, ?_, ?_, rfl, rfl, rfl, ?_⟩
    · simp [update_manifest_pull_stats, hrow, hlt, truthy, htag]
    · simp [update_manifest_pull_stats, hrow, hlt, truthy]
    · simp [hlt]
  · refine ⟨⟨row.total_pull_count + 1, row.last_pull_date, row.last_tag_pulled, t⟩,
      ⟨row.total_pull_count + 1, row.last_pull_date, row.last_tag_pulled, t⟩,
      ?_, ?_, rfl, rfl, rfl, ?_⟩
    · simp [update_manifest_pull_stats, hrow, hlt]
    · simp [update_manifest_pull_stats, hrow, hlt]
    · simp [hlt]

/-- Concrete instance of the amended claim C6, on the existing row
(repository 2, digest "d") with last-pull date 9: an event at time 12. -/
theorem C6_amended_witness :
    ∃ rowT rowD : ManifestPullStatistics,
      update_manifest_pull_stats 2 "d" 12 (some "w") statsWithRow2.manifestStats 2 "d" =
        some rowT ∧
      update_manifest_pull_stats 2 "d" 12 none statsWithRow2.manifestStats 2 "d" =
        some rowD ∧
      rowT.total_pull_count = (7 : Nat) + 1 ∧
      rowD.total_pull_count = (7 : Nat) + 1 ∧
      rowD.last_tag_pulled = (some "v" : Option String) ∧
      rowT.last_tag_pulled =
        (if (9 : Nat) < 12 then some "w" else (some "v" : Option String)) :=
  C6_amended_manifest_update statsWithRow2.manifestStats 2 "d" 12 "w"
    ⟨7, 9, some "v", 9⟩ rfl rfl

/-- When the failing-transaction loop aborts, the statistics it leaves
behind are exactly the full processing of some prefix of the events (the
batches whose transactions committed before the failure). -/
theorem batch_loop_fail_aborted (resolver : Resolver) (batchSize failAt : Nat) :
    ∀ (rest batch : List LogRecord) (k : Nat) (stats : Stats),
    (batch_loop_fail resolver batchSize failAt rest batch k stats).2 = true →
    ∃ pre suf : List LogRecord, batch ++ rest = pre ++ suf ∧
      (batch_loop_fail resolver batchSize failAt rest batch k stats).1 =
        process_log_batch resolver pre stats := by
  intro rest
  induction rest with
  | nil =>
    intro batch k stats h
    by_cases hb : batch.isEmpty
    · simp [batch_loop_fail, hb] at h
    · by_cases hk : k = failAt
      · refine ⟨[], batch, by simp, ?_⟩
        simp [batch_loop_fail, hb, hk, process_log_batch]
      · simp [batch_loop_fail, hb, hk] at h
  | cons log rest2 ih =>
    intro batch k stats h
    by_cases hlen : batchSize ≤ batch.length + 1
    · by_cases hk : k = failAt
      · refine ⟨[], batch ++ log :: rest2, rfl, ?_⟩
        simp [batch_loop_fail, hlen, hk, process_log_batch]
      · have h2 : (batch_loop_fail resolver batchSize failAt rest2 [] (k + 1)
            (process_log_batch resolver (batch ++ [log]) stats)).2 = true := by
          simpa [batch_loop_fail, hlen, hk] using h
        obtain ⟨pre, suf, hps, hstats⟩ := ih [] (k + 1)
          (process_log_batch resolver (batch ++ [log]) stats) h2
        refine ⟨(batch ++ [log]) ++ pre, suf, ?_, ?_⟩
        · simp only [List.nil_append] at hps
          simp [hps]
        · rw [process_log_batch_append]
          rw [← hstats]
          simp [batch_loop_fail, hlen, hk]
    · have h2 : (batch_loop_fail resolver batchSize failAt rest2 (batch ++ [log]) k
          stats).2 = true := by
        simpa [batch_loop_fail, hlen] using h
      obtain ⟨pre, suf, hps, hstats⟩ := ih (batch ++ [log]) k stats h2
      refine ⟨pre, suf, ?_, ?_⟩
      · simpa using hps
      · rw [← hstats]
        simp [batch_loop_fail, hlen]

/-- When no transaction fails, the failing-transaction loop computes the
same statistics as the plain batching loop. -/
theorem batch_loop_fail_success (resolver : Resolver) (batchSize failAt : Nat) :
    ∀ (rest batch : List LogRecord) (k : Nat) (stats : Stats),
    (batch_loop_fail resolver batchSize failAt rest batch k stats).2 = false →
    (batch_loop_fail resolver batchSize failAt rest batch k stats).1 =
      batch_loop resolver batchSize rest batch stats := by
  intro rest
  induction rest with
  | nil =>
    intro batch k stats h
    by_cases hb : batch.isEmpty
    · simp [batch_loop_fail, batch_loop, hb]
    · by_cases hk : k = failAt
      · simp [batch_loop_fail, hb, hk] at h
      · simp [batch_loop_fail, batch_loop, hb, hk]
  | cons log rest2 ih =>
    intro batch k stats h
    by_cases hlen : batchSize ≤ batch.length + 1
    · by_cases hk : k = failAt
      · simp [batch_loop_fail, hlen, hk] at h
      · have h2 : (batch_loop_fail resolver batchSize failAt rest2 [] (k + 1)
            (process_log_batch resolver (batch ++ [log]) stats)).2 = false := by
          simpa [batch_loop_fail, hlen, hk] using h
        rw [show batch_loop_fail resolver batchSize failAt (log :: rest2) batch k stats =
            batch_loop_fail resolver batchSize failAt rest2 [] (k + 1)
              (process_log_batch resolver (batch ++ [log]) stats) by
          simp [batch_loop_fail, hlen, hk]]
        rw [ih [] (k + 1) (process_log_batch resolver (batch ++ [log]) stats) h2]
        simp [batch_loop, hlen]
    · have h2 : (batch_loop_fail resolver batchSize failAt rest2 (batch ++ [log]) k
          stats).2 = false := by
        simpa [batch_loop_fail, hlen] using h
      rw [show batch_loop_fail resolver batchSize failAt (log :: rest2) batch k stats =
          batch_loop_fail resolver batchSize failAt rest2 (batch ++ [log]) k stats by
        simp [batch_loop_fail, hlen]]
      rw [ih (batch ++ [log]) k stats h2]
      simp [batch_loop, hlen]

/-- Claim C3, as stated, fails: with batch size 1, a pass over two
digest-pull events whose second batch's transaction fails leaves the
checkpoint unchanged but does NOT leave the tables in their pre-pass
state — the first batch's committed write (the row for digest "d1")
survives the abort. -/
theorem C3_counterexample :
    (process_pull_logs_with_failure resolverNone 1 1 ⟨0, none, 0⟩
        [⟨some 1, 1, some 1, none, some "d1"⟩, ⟨some 2, 2, some 1, none, some "d2"⟩]
        emptyStats).aborted = true ∧
    (process_pull_logs_with_failure resolverNone 1 1 ⟨0, none, 0⟩
        [⟨some 1, 1, some 1, none, some "d1"⟩, ⟨some 2, 2, some 1, none, some "d2"⟩]
        emptyStats).state = (⟨0, none, 0⟩ : ProcessingState) ∧
    (process_pull_logs_with_failure resolverNone 1 1 ⟨0, none, 0⟩
        [⟨some 1, 1, some 1, none, some "d1"⟩, ⟨some 2, 2, some 1, none, some "d2"⟩]
        emptyStats).stats.manifestStats 1 "d1" = some ⟨1, 1, none, 1⟩ ∧
    emptyStats.manifestStats 1 "d1" = none :=
  ⟨rfl, rfl, rfl, rfl⟩

/-- Claim C3 (amended): a pass aborted by a failing batch transaction
leaves the checkpoint unchanged, and leaves the statistics tables equal to
the full processing of a prefix of the window's events — the batches
committed before the failure; the failing batch itself rolls back
atomically (its paired tag/manifest increments land together or not at
all), and the tables equal the pre-pass state exactly when that prefix is
empty, i.e. when the first batch fails. -/
theorem C3_amended_failed_pass (resolver : Resolver) (batchSize failAt : Nat)
    (state : ProcessingState) (pull_logs : List LogRecord) (stats : Stats)
    (h : (process_pull_logs_with_failure resolver batchSize failAt state pull_logs
        stats).aborted = true) :
    (process_pull_logs_with_failure resolver batchSize failAt state pull_logs
        stats).state = state ∧
    ∃ pre suf : List LogRecord, pull_logs = pre ++ suf ∧
      (process_pull_logs_with_failure resolver batchSize failAt state pull_logs
          stats).stats = process_log_batch resolver pre stats := by
  by_cases hemp : pull_logs.isEmpty
  · simp [process_pull_logs_with_failure, hemp] at h
  · rcases hres : batch_loop_fail resolver batchSize failAt pull_logs [] 0 stats
      with ⟨stats2, flag⟩
    cases flag
    · simp [process_pull_logs_with_failure, hemp, hres] at h
    · have h2 : (batch_loop_fail resolver batchSize failAt pull_logs [] 0 stats).2 =
          true := by rw [hres]
      obtain ⟨pre, suf, hps, hstats⟩ :=
        batch_loop_fail_aborted resolver batchSize failAt pull_logs [] 0 stats h2
      rw [hres] at hstats
      refine ⟨?_, pre, suf, by simpa using hps, ?_⟩
      · simp [process_pull_logs_with_failure, hemp, hres]
      · simp only [process_pull_logs_with_failure, hemp, Bool.false_eq_true, if_false,
          hres]
        exact hstats

/-- Concrete instance of the amended claim C3: with batch size 1 and the
second transaction failing, the checkpoint stays put and the surviving
statistics are the full processing of a prefix of the two events. -/
theorem C3_amended_witness :
    (process_pull_logs_with_failure resolverNone 1 1 ⟨0, none, 0⟩
        [⟨some 3, 1, some 1, none, some "e1"⟩, ⟨some 4, 2, some 1, none, some "e2"⟩]
        emptyStats).state = (⟨0, none, 0⟩ : ProcessingState) ∧
    ∃ pre suf : List LogRecord,
      [⟨some 3, 1, some 1, none, some "e1"⟩, ⟨some 4, 2, some 1, none, some "e2"⟩] =
        pre ++ suf ∧
      (process_pull_logs_with_failure resolverNone 1 1 ⟨0, none, 0⟩
          [⟨some 3, 1, some 1, none, some "e1"⟩,
           ⟨some 4, 2, some 1, none, some "e2"⟩]
          emptyStats).stats = process_log_batch resolverNone pre emptyStats :=
  C3_amended_failed_pass resolverNone 1 1 ⟨0, none, 0⟩ _ emptyStats rfl

/-- Claim C5: across every pass — aborted or successful — the stored
watermark never decreases; an aborted pass leaves the checkpoint record
exactly as it was, and whenever the pass reaches the checkpoint update
(no abort) the statistics writes of the whole window have already been
applied — the checkpoint is advanced only after apply, never before or
without it. -/
theorem C5_watermark_monotone_checkpoint_after_apply (resolver : Resolver)
    (batchSize failAt : Nat) (state : ProcessingState) (pull_logs : List LogRecord)
    (stats : Stats) :
    state.last_processed_datetime ≤
      (process_pull_logs_with_failure resolver batchSize failAt state pull_logs
          stats).state.last_processed_datetime ∧
    ((process_pull_logs_with_failure resolver batchSize failAt state pull_logs
        stats).aborted = true →
      (process_pull_logs_with_failure resolver batchSize failAt state pull_logs
          stats).state = state) ∧
    ((process_pull_logs_with_failure resolver batchSize failAt state pull_logs
        stats).aborted = false →
      (process_pull_logs_with_failure resolver batchSize failAt state pull_logs
          stats).stats = process_log_batch resolver pull_logs stats) := by
  by_cases hemp : pull_logs.isEmpty
  · have hnil : pull_logs = [] := List.isEmpty_iff.mp hemp
    subst hnil
    exact ⟨Nat.le_refl _, fun _ => rfl, fun _ => rfl⟩
  · rcases hres : batch_loop_fail resolver batchSize failAt pull_logs [] 0 stats
      with ⟨stats2, flag⟩
    cases flag
    · have h2 : (batch_loop_fail resolver batchSize failAt pull_logs [] 0 stats).2 =
          false := by rw [hres]
      have hs := batch_loop_fail_success resolver batchSize failAt pull_logs [] 0 stats h2
      rw [hres] at hs
      refine ⟨?_, ?_, ?_⟩
      · simp only [process_pull_logs_with_failure, hemp, Bool.false_eq_true, if_false,
          hres, update_processing_state]
        exact le_foldl_max_datetime pull_logs state.last_processed_datetime
      · intro hab
        simp [process_pull_logs_with_failure, hemp, hres] at hab
      · intro _
        simp only [process_pull_logs_with_failure, hemp, Bool.false_eq_true, if_false,
          hres]
        have hs2 : stats2 = batch_loop resolver batchSize pull_logs [] stats := hs
        rw [hs2, batch_loop_eq]
        simp
    · refine ⟨?_, ?_, ?_⟩
      · simp [process_pull_logs_with_failure, hemp, hres]
      · intro _
        simp [process_pull_logs_with_failure, hemp, hres]
      · intro hab
        simp [process_pull_logs_with_failure, hemp, hres] at hab

/-- Concrete instance of claim C5: a successful single-event pass has
applied the batch's writes by checkpoint time, and the watermark did not
decrease. -/
theorem C5_witness :
    (⟨0, none, 0⟩ : ProcessingState).last_processed_datetime ≤
      (process_pull_logs_with_failure resolverNone 1 5 ⟨0, none, 0⟩
          [⟨some 1, 4, some 1, none, some "d"⟩]
          emptyStats).state.last_processed_datetime ∧
    (process_pull_logs_with_failure resolverNone 1 5 ⟨0, none, 0⟩
        [⟨some 1, 4, some 1, none, some "d"⟩] emptyStats).stats =
      process_log_batch resolverNone [⟨some 1, 4, some 1, none, some "d"⟩]
        emptyStats :=
  ⟨(C5_watermark_monotone_checkpoint_after_apply resolverNone 1 5 ⟨0, none, 0⟩
      [⟨some 1, 4, some 1, none, some "d"⟩] emptyStats).1,
   (C5_watermark_monotone_checkpoint_after_apply resolverNone 1 5 ⟨0, none, 0⟩
      [⟨some 1, 4, some 1, none, some "d"⟩] emptyStats).2.2 rfl⟩

/-- Claim C4 at the watermark boundary: a digest-pull event at timestamp 5
is counted by a first pass over window 0..10 which then checkpoints
watermark 5; the next pass, starting from the stored watermark, re-reads
the same event (the window query's lower bound is inclusive) and
increments its counter again, to 2 — and the watermark stays 5, so every
later pass keeps re-counting it until a strictly newer event arrives. -/
theorem C4_boundary_event_recounted :
    (run_pass resolverNone 1 [⟨some 1, 5, some 1, none, some "d"⟩] 10 ⟨0, none, 0⟩
        emptyStats).1.last_processed_datetime = 5 ∧
    manifestCount
      (run_pass resolverNone 1 [⟨some 1, 5, some 1, none, some "d"⟩] 10 ⟨0, none, 0⟩
          emptyStats).2 1 "d" = 1 ∧
    manifestCount
      (run_pass resolverNone 1 [⟨some 1, 5, some 1, none, some "d"⟩] 20
          (run_pass resolverNone 1 [⟨some 1, 5, some 1, none, some "d"⟩] 10
              ⟨0, none, 0⟩ emptyStats).1
          (run_pass resolverNone 1 [⟨some 1, 5, some 1, none, some "d"⟩] 10
              ⟨0, none, 0⟩ emptyStats).2).2 1 "d" = 2 ∧
    (run_pass resolverNone 1 [⟨some 1, 5, some 1, none, some "d"⟩] 20
        (run_pass resolverNone 1 [⟨some 1, 5, some 1, none, some "d"⟩] 10
            ⟨0, none, 0⟩ emptyStats).1
        (run_pass resolverNone 1 [⟨some 1, 5, some 1, none, some "d"⟩] 10
            ⟨0, none, 0⟩ emptyStats).2).1.last_processed_datetime = 5 :=
  ⟨rfl, rfl, rfl, rfl⟩
